import Mathlib

/-!
Shallow embedding of the animated particle-field canvas simulation:
node store generation, the per-tick integrator (boundary reflection and
pointer pinning), the pointer state machine (drag smoothing / hover), and
the renderer's pure computations (edge discovery, base opacity, proximity
falloff, hex-color parsing).

Numbers are embedded as exact rationals where the computations are
field-arithmetic only, and as reals where the source takes square roots
(Math.hypot / Math.sqrt in the proximity and edge-distance computations).
-/

namespace GraphSim

/-- One simulation node: the d3 SimulationNodeDatum fields plus the
repository's additions (id, radius, color).  `fx`/`fy` use `Option` for
the source's `number | null`. -/
structure Node (α : Type) where
  id : ℤ
  x : α
  y : α
  vx : α
  vy : α
  fx : Option α
  fy : Option α
  radius : α
  color : String
  deriving DecidableEq

/-- const NODE_RADIUS = 4 -/
def NODE_RADIUS : ℚ := 4

/-- const SPEED_FACTOR = 0.44 -/
def SPEED_FACTOR : ℚ := 0.44

/-- const RADIUS_MIN_FACTOR = 0.10 -/
def RADIUS_MIN_FACTOR : ℚ := 0.10

/-- const RADIUS_MAX_FACTOR = 0.2 -/
def RADIUS_MAX_FACTOR : ℚ := 0.2

/-- const DRAG_LERP = 0 (source comment: 0 = immediate, 1 = no movement) -/
def DRAG_LERP : ℚ := 0

/-- const LINK_DISTANCE = 100, px threshold for drawing an edge -/
def LINK_DISTANCE : ℝ := 100

/-- const MOUSE_EFFECT_RADIUS_NODES = 700 -/
def MOUSE_EFFECT_RADIUS_NODES : ℝ := 700

/-- const MOUSE_EFFECT_RADIUS_EDGES = 375 -/
def MOUSE_EFFECT_RADIUS_EDGES : ℝ := 375

/-- The two falloff modes of the proximity function. -/
inductive Falloff
  | linear
  | quadratic
  deriving DecidableEq

/-- const MOUSE_FALLOFF = "linear" -/
def MOUSE_FALLOFF : Falloff := .linear

/-! ## Integrator (the `ticked` handler) -/

/-- X-axis clamp and reflect from `ticked`: if `x <= radius` clamp to
`radius` and make `vx` non-negative; else if `x >= width - radius` clamp
to `width - radius` and make `vx` non-positive. -/
def bounceX (width : ℚ) (n : Node ℚ) : Node ℚ :=
  if n.x ≤ n.radius then { n with x := n.radius, vx := |n.vx| }
  else if n.x ≥ width - n.radius then { n with x := width - n.radius, vx := -|n.vx| }
  else n

/-- Y-axis clamp and reflect from `ticked`, mirroring `bounceX`. -/
def bounceY (height : ℚ) (n : Node ℚ) : Node ℚ :=
  if n.y ≤ n.radius then { n with y := n.radius, vy := |n.vy| }
  else if n.y ≥ height - n.radius then { n with y := height - n.radius, vy := -|n.vy| }
  else n

/-- The body of the `ticked` loop for one node: the pinned mouse node
(id = -1 with both `fx` and `fy` non-null) gets zero velocity and its
position forced to the pin, skipping bounce adjustments; every other node
gets the X then Y clamp-and-reflect. -/
def tickNode (width height : ℚ) (n : Node ℚ) : Node ℚ :=
  match n.fx, n.fy with
  | some px, some py =>
      if n.id = -1 then { n with vx := 0, vy := 0, x := px, y := py }
      else bounceY height (bounceX width n)
  | _, _ => bounceY height (bounceX width n)

/-- The `ticked` handler over the whole node store. -/
def ticked (width height : ℚ) (nodes : List (Node ℚ)) : List (Node ℚ) :=
  nodes.map (tickNode width height)

/-- Modelled from the spec: the external stepped-simulation engine (a
library dependency, not part of the repository sources) advances each
node's position by its velocity once per tick; when both pin fields are
present the position is externally fixed to the pin and velocity
integration for that node is suppressed.  All inter-particle forces are
disabled and both decays are zero, so the engine changes nothing else. -/
def d3Step (n : Node ℚ) : Node ℚ :=
  match n.fx, n.fy with
  | some px, some py => { n with x := px, y := py, vx := 0, vy := 0 }
  | _, _ => { n with x := n.x + n.vx, y := n.y + n.vy }

/-- One full tick for one node: external integration, then the
repository's `ticked` clamp/pin handling. -/
def tickStepNode (width height : ℚ) (n : Node ℚ) : Node ℚ :=
  tickNode width height (d3Step n)

/-! ### Field-preservation lemmas for the integrator -/

theorem bounceX_y (w : ℚ) (n : Node ℚ) : (bounceX w n).y = n.y := by
  unfold bounceX; split_ifs <;> rfl

theorem bounceX_vy (w : ℚ) (n : Node ℚ) : (bounceX w n).vy = n.vy := by
  unfold bounceX; split_ifs <;> rfl

theorem bounceX_radius (w : ℚ) (n : Node ℚ) : (bounceX w n).radius = n.radius := by
  unfold bounceX; split_ifs <;> rfl

theorem bounceY_x (h : ℚ) (n : Node ℚ) : (bounceY h n).x = n.x := by
  unfold bounceY; split_ifs <;> rfl

theorem bounceY_vx (h : ℚ) (n : Node ℚ) : (bounceY h n).vx = n.vx := by
  unfold bounceY; split_ifs <;> rfl

theorem bounceY_radius (h : ℚ) (n : Node ℚ) : (bounceY h n).radius = n.radius := by
  unfold bounceY; split_ifs <;> rfl

theorem d3Step_radius (n : Node ℚ) : (d3Step n).radius = n.radius := by
  unfold d3Step
  cases n.fx <;> cases n.fy <;> rfl

theorem d3Step_id (n : Node ℚ) : (d3Step n).id = n.id := by
  unfold d3Step
  cases n.fx <;> cases n.fy <;> rfl

theorem d3Step_fx (n : Node ℚ) : (d3Step n).fx = n.fx := by
  unfold d3Step
  cases hx : n.fx <;> cases hy : n.fy <;> simp

theorem d3Step_fy (n : Node ℚ) : (d3Step n).fy = n.fy := by
  unfold d3Step
  cases hx : n.fx <;> cases hy : n.fy <;> simp

theorem bounceX_vx_abs (w : ℚ) (n : Node ℚ) : |(bounceX w n).vx| = |n.vx| := by
  unfold bounceX; split_ifs <;> simp [abs_abs, abs_neg]

theorem bounceY_vy_abs (h : ℚ) (n : Node ℚ) : |(bounceY h n).vy| = |n.vy| := by
  unfold bounceY; split_ifs <;> simp [abs_abs, abs_neg]

/-- When the pin special-case is not taken, `tickNode` is the two-axis
clamp-and-reflect. -/
theorem tickNode_eq_bounce (w h : ℚ) (n : Node ℚ)
    (hnp : ¬ (n.id = -1 ∧ n.fx.isSome ∧ n.fy.isSome)) :
    tickNode w h n = bounceY h (bounceX w n) := by
  unfold tickNode
  cases hx : n.fx with
  | none => rfl
  | some px =>
    cases hy : n.fy with
    | none => rfl
    | some py =>
      have hid : ¬ n.id = -1 := fun hid => hnp ⟨hid, by simp [hx], by simp [hy]⟩
      simp only [if_neg hid]

/-- After the X clamp, the X position is inside `[radius, width - radius]`,
provided the node's diameter fits the width. -/
theorem bounceX_x_bounds (w : ℚ) (n : Node ℚ) (hw : 2 * n.radius ≤ w) :
    n.radius ≤ (bounceX w n).x ∧ (bounceX w n).x ≤ w - n.radius := by
  unfold bounceX
  split_ifs with h1 h2
  · exact ⟨by show n.radius ≤ n.radius; linarith,
           by show n.radius ≤ w - n.radius; linarith⟩
  · exact ⟨by show n.radius ≤ w - n.radius; linarith,
           by show w - n.radius ≤ w - n.radius; linarith⟩
  · exact ⟨by linarith [not_le.mp h1], by linarith [not_le.mp h2]⟩

/-- After the Y clamp, the Y position is inside `[radius, height - radius]`,
provided the node's diameter fits the height. -/
theorem bounceY_y_bounds (h : ℚ) (n : Node ℚ) (hh : 2 * n.radius ≤ h) :
    n.radius ≤ (bounceY h n).y ∧ (bounceY h n).y ≤ h - n.radius := by
  unfold bounceY
  split_ifs with h1 h2
  · exact ⟨by show n.radius ≤ n.radius; linarith,
           by show n.radius ≤ h - n.radius; linarith⟩
  · exact ⟨by show n.radius ≤ h - n.radius; linarith,
           by show h - n.radius ≤ h - n.radius; linarith⟩
  · exact ⟨by linarith [not_le.mp h1], by linarith [not_le.mp h2]⟩

/-- An X clamp applied at an already in-bounds position with zero X
velocity leaves both unchanged. -/
theorem bounceX_fixed (w : ℚ) (n : Node ℚ) (hv : n.vx = 0)
    (hlo : n.radius ≤ n.x) (hhi : n.x ≤ w - n.radius) :
    (bounceX w n).x = n.x ∧ (bounceX w n).vx = 0 := by
  unfold bounceX
  split_ifs with h1 h2
  · exact ⟨by show n.radius = n.x; linarith, by show |n.vx| = 0; simp [hv]⟩
  · exact ⟨by show w - n.radius = n.x; linarith, by show -|n.vx| = 0; simp [hv]⟩
  · exact ⟨rfl, hv⟩

/-- A Y clamp applied at an already in-bounds position with zero Y
velocity leaves both unchanged. -/
theorem bounceY_fixed (h : ℚ) (n : Node ℚ) (hv : n.vy = 0)
    (hlo : n.radius ≤ n.y) (hhi : n.y ≤ h - n.radius) :
    (bounceY h n).y = n.y ∧ (bounceY h n).vy = 0 := by
  unfold bounceY
  split_ifs with h1 h2
  · exact ⟨by show n.radius = n.y; linarith, by show |n.vy| = 0; simp [hv]⟩
  · exact ⟨by show h - n.radius = n.y; linarith, by show -|n.vy| = 0; simp [hv]⟩
  · exact ⟨rfl, hv⟩

/-! ## Integrator claims -/

/-- Claim C3 counterexample: a non-pointer node of radius 1 in a clamped-minimum
1×1 viewport ends the tick at x = 1, violating `radius ≤ x ≤ width − radius`
(the band is empty when the radius exceeds half the dimension). -/
theorem c3_counterexample :
    ¬ ((1 : ℚ) ≤ (tickStepNode 1 1 ⟨0, 0, 0, 0, 0, none, none, 1, ""⟩).x ∧
       (tickStepNode 1 1 ⟨0, 0, 0, 0, 0, none, none, 1, ""⟩).x ≤ 1 - 1) := by
  have hx : (tickStepNode 1 1 ⟨0, 0, 0, 0, 0, none, none, 1, ""⟩).x = 1 := by
    norm_num [tickStepNode, tickNode, d3Step, bounceX, bounceY]
  rw [hx]
  norm_num

/-- Claim C3 (amended): for every node except the pinned pointer-node, after one
tick-step the position satisfies `radius ≤ x ≤ width − radius` and
`radius ≤ y ≤ height − radius`, for any starting position and velocity, provided
the node's diameter fits the viewport (`2·radius ≤ width` and `2·radius ≤ height`). -/
theorem c3_in_bounds_after_tick (width height : ℚ) (n : Node ℚ)
    (hw : 2 * n.radius ≤ width) (hh : 2 * n.radius ≤ height)
    (hnp : ¬ (n.id = -1 ∧ n.fx.isSome ∧ n.fy.isSome)) :
    n.radius ≤ (tickStepNode width height n).x ∧
    (tickStepNode width height n).x ≤ width - n.radius ∧
    n.radius ≤ (tickStepNode width height n).y ∧
    (tickStepNode width height n).y ≤ height - n.radius := by
  have hnp2 : ¬ ((d3Step n).id = -1 ∧ (d3Step n).fx.isSome ∧ (d3Step n).fy.isSome) := by
    rw [d3Step_id, d3Step_fx, d3Step_fy]; exact hnp
  have hr : (d3Step n).radius = n.radius := d3Step_radius n
  unfold tickStepNode
  rw [tickNode_eq_bounce _ _ _ hnp2]
  have hbx := bounceX_x_bounds width (d3Step n) (by rw [hr]; exact hw)
  have hrad2 : (bounceX width (d3Step n)).radius = n.radius := by
    rw [bounceX_radius, hr]
  have hby := bounceY_y_bounds height (bounceX width (d3Step n)) (by rw [hrad2]; exact hh)
  rw [hr] at hbx
  rw [hrad2] at hby
  exact ⟨by rw [bounceY_x]; exact hbx.1, by rw [bounceY_x]; exact hbx.2, hby.1, hby.2⟩

/-- Concrete non-pointer node used to instantiate the in-bounds claim. -/
def sampleNode3 : Node ℚ :=
  { id := 0, x := 500, y := -3, vx := 2, vy := 1, fx := none, fy := none,
    radius := 1, color := "" }

theorem c3_in_bounds_witness :
    (2 * sampleNode3.radius ≤ 100 ∧ 2 * sampleNode3.radius ≤ 100 ∧
      ¬ (sampleNode3.id = -1 ∧ sampleNode3.fx.isSome ∧ sampleNode3.fy.isSome)) ∧
    (sampleNode3.radius ≤ (tickStepNode 100 100 sampleNode3).x ∧
     (tickStepNode 100 100 sampleNode3).x ≤ 100 - sampleNode3.radius ∧
     sampleNode3.radius ≤ (tickStepNode 100 100 sampleNode3).y ∧
     (tickStepNode 100 100 sampleNode3).y ≤ 100 - sampleNode3.radius) :=
  ⟨⟨by norm_num [sampleNode3], by norm_num [sampleNode3], by decide⟩,
   c3_in_bounds_after_tick 100 100 sampleNode3
     (by norm_num [sampleNode3]) (by norm_num [sampleNode3]) (by decide)⟩

/-- Claim C4 counterexample: a non-pointer node (id 0) pinned at (0,0) with
radius 1 in a 100×100 viewport does not stay at its pin: the tick handler's
boundary clamp (applied because the pin special-case tests `id === -1`) moves
it to (1,1). -/
theorem c4_counterexample :
    ¬ ((tickStepNode 100 100 ⟨0, 50, 50, 3, 4, some 0, some 0, 1, ""⟩).x = 0 ∧
       (tickStepNode 100 100 ⟨0, 50, 50, 3, 4, some 0, some 0, 1, ""⟩).y = 0) := by
  have hx : (tickStepNode 100 100 ⟨0, 50, 50, 3, 4, some 0, some 0, 1, ""⟩).x = 1 := by
    norm_num [tickStepNode, tickNode, d3Step, bounceX, bounceY]
  intro hc
  rw [hx] at hc
  exact absurd hc.1 (by norm_num)

/-- Claim C4 (amended): a node with both pin fields present ends the tick at the
pin with zero velocity provided it is the pointer-node (id −1) or its pin lies
inside the reflection band on both axes; a non-pointer pinned node still goes
through boundary clamping, which is a no-op exactly when the pin is in-bounds. -/
theorem c4_pinned_node_tick (width height : ℚ) (n : Node ℚ) (px py : ℚ)
    (hfx : n.fx = some px) (hfy : n.fy = some py)
    (hin : n.id = -1 ∨
      (n.radius ≤ px ∧ px ≤ width - n.radius ∧ n.radius ≤ py ∧ py ≤ height - n.radius)) :
    (tickStepNode width height n).x = px ∧ (tickStepNode width height n).y = py ∧
    (tickStepNode width height n).vx = 0 ∧ (tickStepNode width height n).vy = 0 := by
  have hd3 : d3Step n = { n with x := px, y := py, vx := 0, vy := 0 } := by
    unfold d3Step; rw [hfx, hfy]
  unfold tickStepNode
  rw [hd3]
  by_cases hid : n.id = -1
  · simp [tickNode, hfx, hfy, hid]
  · rcases hin with hid2 | hbounds
    · exact absurd hid2 hid
    · set m : Node ℚ := { n with x := px, y := py, vx := 0, vy := 0 } with hm
      have hmnp : ¬ (m.id = -1 ∧ m.fx.isSome ∧ m.fy.isSome) := fun hc => hid hc.1
      rw [tickNode_eq_bounce _ _ _ hmnp]
      have hx := bounceX_fixed width m rfl (by show n.radius ≤ px; exact hbounds.1)
        (by show px ≤ width - n.radius; exact hbounds.2.1)
      have hy := bounceY_fixed height (bounceX width m)
        (by rw [bounceX_vy]) (by rw [bounceX_y, bounceX_radius]; exact hbounds.2.2.1)
        (by rw [bounceX_y, bounceX_radius]; exact hbounds.2.2.2)
      refine ⟨?_, ?_, ?_, ?_⟩
      · rw [bounceY_x, hx.1]
      · rw [hy.1, bounceX_y]
      · rw [bounceY_vx, hx.2]
      · exact hy.2

/-- Concrete pinned non-pointer node with an in-bounds pin. -/
def sampleNode4 : Node ℚ :=
  { id := 7, x := 3, y := 4, vx := 5, vy := 6, fx := some 40, fy := some 60,
    radius := 1, color := "" }

theorem c4_pinned_node_witness :
    (sampleNode4.fx = some 40 ∧ sampleNode4.fy = some 60 ∧
      (sampleNode4.id = -1 ∨
        (sampleNode4.radius ≤ 40 ∧ 40 ≤ 100 - sampleNode4.radius ∧
         sampleNode4.radius ≤ 60 ∧ 60 ≤ 100 - sampleNode4.radius))) ∧
    ((tickStepNode 100 100 sampleNode4).x = 40 ∧
     (tickStepNode 100 100 sampleNode4).y = 60 ∧
     (tickStepNode 100 100 sampleNode4).vx = 0 ∧
     (tickStepNode 100 100 sampleNode4).vy = 0) :=
  ⟨⟨rfl, rfl, Or.inr (by norm_num [sampleNode4])⟩,
   c4_pinned_node_tick 100 100 sampleNode4 40 60 rfl rfl
     (Or.inr (by norm_num [sampleNode4]))⟩

/-- Claim C5: whenever the pointer-node (sentinel id −1) has both pin fields
present, one tick-step forces its velocity to exactly (0,0) and its position to
exactly (fx, fy), regardless of its prior position and velocity. -/
theorem c5_pointer_pin_zero_velocity (width height : ℚ) (n : Node ℚ) (px py : ℚ)
    (hid : n.id = -1) (hfx : n.fx = some px) (hfy : n.fy = some py) :
    (tickStepNode width height n).vx = 0 ∧ (tickStepNode width height n).vy = 0 ∧
    (tickStepNode width height n).x = px ∧ (tickStepNode width height n).y = py := by
  have hd3 : d3Step n = { n with x := px, y := py, vx := 0, vy := 0 } := by
    unfold d3Step; rw [hfx, hfy]
  unfold tickStepNode
  rw [hd3]
  simp [tickNode, hfx, hfy, hid]

/-- Concrete pinned pointer-node. -/
def samplePointerNode : Node ℚ :=
  { id := -1, x := 3, y := 4, vx := 5, vy := 6, fx := some 7, fy := some 8,
    radius := 1, color := "#3cd962" }

theorem c5_pointer_pin_witness :
    (samplePointerNode.id = -1 ∧ samplePointerNode.fx = some 7 ∧
      samplePointerNode.fy = some 8) ∧
    ((tickStepNode 900 600 samplePointerNode).vx = 0 ∧
     (tickStepNode 900 600 samplePointerNode).vy = 0 ∧
     (tickStepNode 900 600 samplePointerNode).x = 7 ∧
     (tickStepNode 900 600 samplePointerNode).y = 8) :=
  ⟨⟨rfl, rfl, rfl⟩, c5_pointer_pin_zero_velocity 900 600 samplePointerNode 7 8 rfl rfl rfl⟩

/-- Claim C6: for every non-pointer node, the tick handler's wall reflection
preserves speed — `vx² + vy²` is unchanged across the step, and each axis
component keeps its magnitude (only the sign of a bounced axis can change). -/
theorem c6_reflection_preserves_speed (width height : ℚ) (n : Node ℚ)
    (hid : n.id ≠ -1) :
    (tickNode width height n).vx ^ 2 + (tickNode width height n).vy ^ 2 =
      n.vx ^ 2 + n.vy ^ 2 ∧
    |(tickNode width height n).vx| = |n.vx| ∧
    |(tickNode width height n).vy| = |n.vy| := by
  have hb : tickNode width height n = bounceY height (bounceX width n) :=
    tickNode_eq_bounce width height n (fun hc => hid hc.1)
  rw [hb]
  have hvx : |(bounceY height (bounceX width n)).vx| = |n.vx| := by
    rw [bounceY_vx, bounceX_vx_abs]
  have hvy : |(bounceY height (bounceX width n)).vy| = |n.vy| := by
    rw [bounceY_vy_abs, bounceX_vy]
  refine ⟨?_, hvx, hvy⟩
  rw [← sq_abs (bounceY height (bounceX width n)).vx, hvx,
      ← sq_abs (bounceY height (bounceX width n)).vy, hvy, sq_abs, sq_abs]

/-- Concrete bouncing node: starts left of the left wall with negative vx. -/
def sampleNode6 : Node ℚ :=
  { id := 2, x := -5, y := 50, vx := -3, vy := 4, fx := none, fy := none,
    radius := 1, color := "" }

theorem c6_reflection_witness :
    sampleNode6.id ≠ -1 ∧
    ((tickNode 100 100 sampleNode6).vx ^ 2 + (tickNode 100 100 sampleNode6).vy ^ 2 =
        sampleNode6.vx ^ 2 + sampleNode6.vy ^ 2 ∧
      |(tickNode 100 100 sampleNode6).vx| = |sampleNode6.vx| ∧
      |(tickNode 100 100 sampleNode6).vy| = |sampleNode6.vy|) :=
  ⟨by decide, c6_reflection_preserves_speed 100 100 sampleNode6 (by decide)⟩

/-! ## Node store generation -/

/-- The color-weight table. -/
def COLOR_WEIGHTS : List (String × ℚ) :=
  [("#3cd962", 0.75), ("#FF00FF", 0.18), ("#e9fbfd", 0.07)]

/-- The cumulative-sum loop of `pickWeightedColor`: `acc` accumulates the
weights; the first band containing the draw `r` wins. -/
def pickWeightedColorAux (r : ℚ) : ℚ → List (String × ℚ) → Option String
  | _, [] => none
  | acc, cw :: rest =>
      if r ≤ acc + cw.2 then some cw.1 else pickWeightedColorAux r (acc + cw.2) rest

/-- `pickWeightedColor` with the `Math.random()` draw made explicit; falls
back to the first table entry when no band matched. -/
def pickWeightedColor (r : ℚ) : String :=
  match pickWeightedColorAux r 0 COLOR_WEIGHTS with
  | some c => c
  | none => (COLOR_WEIGHTS.headD ("", 0)).1

/-- One element of `generateNodes`; `rnd k` is the k-th `Math.random()`
draw used while building node `i` (factor, x, y, vx, vy, color). -/
def generateNode (i : ℕ) (width height : ℚ) (rnd : ℕ → ℚ) : Node ℚ :=
  let factor := RADIUS_MIN_FACTOR + rnd 0 * (RADIUS_MAX_FACTOR - RADIUS_MIN_FACTOR)
  let radius := max 1 (NODE_RADIUS * factor)
  { id := (i : ℤ), x := rnd 1 * width, y := rnd 2 * height,
    vx := (rnd 3 - 0.5) * 2 * SPEED_FACTOR,
    vy := (rnd 4 - 0.5) * 2 * SPEED_FACTOR,
    radius := radius, color := pickWeightedColor (rnd 5), fx := none, fy := none }

/-- `generateNodes(count, width, height)` with the random source explicit. -/
def generateNodes (count : ℕ) (width height : ℚ) (rnd : ℕ → ℕ → ℚ) : List (Node ℚ) :=
  (List.range count).map (fun i => generateNode i width height (rnd i))

/-- The dedicated mouse node (id = −1), created at the viewport center with
the fixed small radius `max(1, NODE_RADIUS * 0.15)`. -/
def mouseNode (width height : ℚ) : Node ℚ :=
  { id := -1, x := width / 2, y := height / 2, vx := 0, vy := 0,
    radius := max 1 (NODE_RADIUS * 0.15), color := "#3cd962",
    fx := none, fy := none }

/-- The node store: the generated nodes with the mouse node pushed at the
end so it participates in edge computation. -/
def nodeStore (count : ℕ) (width height : ℚ) (rnd : ℕ → ℕ → ℚ) : List (Node ℚ) :=
  generateNodes count width height rnd ++ [mouseNode width height]

/-- Claim C10: under the shipped constants (base radius 4, factor bounds
0.10–0.2, pointer factor 0.15), every node in the store — generated nodes and
the mouse node alike — has radius exactly 1: the 1-pixel floor dominates. -/
theorem c10_all_radii_one (count : ℕ) (width height : ℚ) (rnd : ℕ → ℕ → ℚ)
    (hr : ∀ i k, 0 ≤ rnd i k ∧ rnd i k < 1) :
    ∀ n ∈ nodeStore count width height rnd, n.radius = 1 := by
  intro n hn
  rw [nodeStore, List.mem_append] at hn
  rcases hn with hn | hn
  · rw [generateNodes, List.mem_map] at hn
    obtain ⟨i, _, hgen⟩ := hn
    have h0 := hr i 0
    subst hgen
    simp only [generateNode, NODE_RADIUS, RADIUS_MIN_FACTOR, RADIUS_MAX_FACTOR]
    apply max_eq_left
    nlinarith [h0.1, h0.2]
  · simp only [List.mem_singleton] at hn
    subst hn
    simp only [mouseNode, NODE_RADIUS]
    apply max_eq_left
    norm_num

/-- A degenerate random source: every draw is 0 (a legal `Math.random` value). -/
def zeroRnd : ℕ → ℕ → ℚ := fun _ _ => 0

theorem c10_all_radii_witness :
    (∀ i k, 0 ≤ zeroRnd i k ∧ zeroRnd i k < 1) ∧
    ∀ n ∈ nodeStore 2 900 600 zeroRnd, n.radius = 1 :=
  ⟨fun _ _ => ⟨le_refl 0, by norm_num [zeroRnd]⟩,
   c10_all_radii_one 2 900 600 zeroRnd (fun _ _ => ⟨le_refl 0, by norm_num [zeroRnd]⟩)⟩

/-! ## Pointer state machine -/

/-- The fields of a pointer event the handlers read. -/
structure PEvent where
  clientX : ℚ
  clientY : ℚ
  isPrimary : Bool
  pointerId : ℤ
  deriving DecidableEq

/-- The canvas bounding rectangle. -/
structure Rect where
  left : ℚ
  top : ℚ
  width : ℚ
  height : ℚ
  deriving DecidableEq

/-- The mutable closure state of the pointer handlers: the mouse node they
write, the `rafId != null` flag, `lastEvent`, `isDragging` and
`activePointerId`. -/
structure PointerSession where
  mouse : Node ℚ
  rafScheduled : Bool
  lastEvent : Option PEvent
  isDragging : Bool
  activePointerId : Option ℤ
  deriving DecidableEq

/-- const lerp = (a, b, t) => a + (b - a) * t -/
def lerp (a b t : ℚ) : ℚ := a + (b - a) * t

/-- `processPointer`: clears the scheduled-frame flag, converts the last
event to clamped canvas coordinates, then either lerps the mouse node toward
the pointer (dragging) or follows it directly (hover), pinning `fx`/`fy`
either way.  (`mouseNode.x ?? cx` never falls back in this model because `x`
is total; the `simulation.alpha(0.1)` nudge is a driver side effect outside
this state.) -/
def processPointer (rect : Rect) (s : PointerSession) : PointerSession :=
  let s0 := { s with rafScheduled := false }
  match s0.lastEvent with
  | none => s0
  | some e =>
      let cx0 := e.clientX - rect.left
      let cy0 := e.clientY - rect.top
      let cx := max 0 (min cx0 rect.width)
      let cy := max 0 (min cy0 rect.height)
      if s0.isDragging then
        let mx := lerp s0.mouse.x cx DRAG_LERP
        let my := lerp s0.mouse.y cy DRAG_LERP
        { s0 with
          mouse := { s0.mouse with x := mx, y := my, fx := some mx, fy := some my },
          lastEvent := none }
      else
        { s0 with
          mouse := { s0.mouse with x := cx, y := cy, fx := some cx, fy := some cy },
          lastEvent := none }

/-- `handlePointerMoveGlobal`: record the last event and make sure one
frame-aligned processing callback is scheduled. -/
def handlePointerMoveGlobal (e : PEvent) (s : PointerSession) : PointerSession :=
  { s with lastEvent := some e, rafScheduled := true }

/-- `onPointerDown`: a primary pointer starts a drag, records the event,
captures the pointer id and ensures the processing callback is scheduled
(the capture call and the `alphaTarget`/`restart` driver calls are
environment side effects outside this state). -/
def onPointerDown (e : PEvent) (s : PointerSession) : PointerSession :=
  if !e.isPrimary then s
  else
    { s with isDragging := true, activePointerId := some e.pointerId,
             lastEvent := some e, rafScheduled := true }

/-- `endDragFromEvent` (pointerup / pointercancel): a primary pointer ends
the drag even when the pointer ids mismatch. -/
def endDragFromEvent (e : PEvent) (s : PointerSession) : PointerSession :=
  if !e.isPrimary then s
  else { s with isDragging := false, activePointerId := none, lastEvent := none }

/-- `handlePointerLeaveGlobal`: outside a drag, clear the mouse node's pin. -/
def handlePointerLeaveGlobal (s : PointerSession) : PointerSession :=
  if s.isDragging then s
  else { s with mouse := { s.mouse with fx := none, fy := none } }

/-- The closure state right after initialization for a given viewport. -/
def initialSession (width height : ℚ) : PointerSession :=
  { mouse := mouseNode width height, rafScheduled := false, lastEvent := none,
    isDragging := false, activePointerId := none }

/-- Claim C1 (code-bug evaluation): with the smoothing factor `DRAG_LERP = 0`,
a pointerdown at (100,100) followed by a pointer-move to (150,100) leaves the
dragged mouse node at its previous position (450,300) — the viewport center —
on the next processed frame, not at (150,100): `lerp(prev, target, 0) = prev`,
the inverse of the documented semantics (0 = immediate). -/
theorem c1_drag_lerp_inverted :
    ((processPointer ⟨0, 0, 900, 600⟩
        (handlePointerMoveGlobal ⟨150, 100, true, 1⟩
          (onPointerDown ⟨100, 100, true, 1⟩ (initialSession 900 600)))).mouse.x = 450 ∧
     (processPointer ⟨0, 0, 900, 600⟩
        (handlePointerMoveGlobal ⟨150, 100, true, 1⟩
          (onPointerDown ⟨100, 100, true, 1⟩ (initialSession 900 600)))).mouse.y = 300) ∧
    ¬ (processPointer ⟨0, 0, 900, 600⟩
        (handlePointerMoveGlobal ⟨150, 100, true, 1⟩
          (onPointerDown ⟨100, 100, true, 1⟩ (initialSession 900 600)))).mouse.x = 150 := by
  have hx : (processPointer ⟨0, 0, 900, 600⟩
      (handlePointerMoveGlobal ⟨150, 100, true, 1⟩
        (onPointerDown ⟨100, 100, true, 1⟩ (initialSession 900 600)))).mouse.x = 450 := by
    norm_num [processPointer, handlePointerMoveGlobal, onPointerDown,
      initialSession, mouseNode, lerp, DRAG_LERP]
  have hy : (processPointer ⟨0, 0, 900, 600⟩
      (handlePointerMoveGlobal ⟨150, 100, true, 1⟩
        (onPointerDown ⟨100, 100, true, 1⟩ (initialSession 900 600)))).mouse.y = 300 := by
    norm_num [processPointer, handlePointerMoveGlobal, onPointerDown,
      initialSession, mouseNode, lerp, DRAG_LERP]
  exact ⟨⟨hx, hy⟩, by rw [hx]; norm_num⟩

/-! ## Hex color conversion -/

/-- Value of one hexadecimal digit, case-insensitive. -/
def hexDigitVal (c : Char) : Option ℕ :=
  if '0' ≤ c ∧ c ≤ '9' then some (c.toNat - 48)
  else if 'a' ≤ c ∧ c ≤ 'f' then some (c.toNat - 97 + 10)
  else if 'A' ≤ c ∧ c ≤ 'F' then some (c.toNat - 65 + 10)
  else none

/-- Strip a leading `0x`/`0X` prefix (part of `parseInt` with radix 16). -/
def strip0x : List Char → List Char
  | '0' :: 'x' :: rest => rest
  | '0' :: 'X' :: rest => rest
  | cs => cs

/-- The longest prefix of hex digits, as a number; `none` (NaN) when there
is no digit at all. -/
def parseHexDigits (cs : List Char) : Option ℕ :=
  let ds := cs.takeWhile (fun c => (hexDigitVal c).isSome)
  if ds.isEmpty then none
  else some (ds.foldl (fun acc c => 16 * acc + ((hexDigitVal c).getD 0)) 0)

/-- JavaScript `parseInt(s, 16)`: skip leading whitespace, take an optional
sign and an optional `0x` prefix, then the longest run of hex digits;
`none` models the NaN result. -/
def parseInt16 (s : String) : Option ℤ :=
  match s.toList.dropWhile (fun c => c.isWhitespace) with
  | '-' :: rest => (parseHexDigits (strip0x rest)).map (fun v => -(v : ℤ))
  | '+' :: rest => (parseHexDigits (strip0x rest)).map (fun v => (v : ℤ))
  | cs => (parseHexDigits (strip0x cs)).map (fun v => (v : ℤ))

/-- JavaScript `String.replace("#", "")`: removes only the first occurrence. -/
def removeFirstHash : List Char → List Char
  | [] => []
  | c :: rest => if c = '#' then rest else c :: removeFirstHash rest

/-- JavaScript single-character indexing `s[i]` (empty when out of range). -/
def jsCharAt (s : String) (i : ℕ) : String :=
  match s.toList.drop i with
  | [] => ""
  | c :: _ => String.singleton c

/-- JavaScript `s.slice(a, b)` for `0 ≤ a ≤ b` (the only uses here). -/
def jsSlice (s : String) (a b : ℕ) : String :=
  String.mk ((s.toList.drop a).take (b - a))

/-- An RGB triple whose components may be NaN (from a failed `parseInt`). -/
structure Rgb where
  r : Option ℤ
  g : Option ℤ
  b : Option ℤ
  deriving DecidableEq

/-- `hexToRgb`: empty strings (the only falsy strings) fall back to neutral
gray; otherwise the first `#` is dropped and either the 3-digit shorthand or
the 6-digit form is parsed pairwise. -/
def hexToRgb (hex : String) : Rgb :=
  if hex = "" then { r := some 200, g := some 200, b := some 200 }
  else
    let h := String.mk (removeFirstHash hex.toList)
    if h.length = 3 then
      { r := parseInt16 (jsCharAt h 0 ++ jsCharAt h 0),
        g := parseInt16 (jsCharAt h 1 ++ jsCharAt h 1),
        b := parseInt16 (jsCharAt h 2 ++ jsCharAt h 2) }
    else
      { r := parseInt16 (jsSlice h 0 2),
        g := parseInt16 (jsSlice h 2 4),
        b := parseInt16 (jsSlice h 4 6) }

/-- Sanity check: a well-formed 6-digit color parses to its components. -/
theorem hexToRgb_well_formed :
    hexToRgb "#3cd962" = { r := some 60, g := some 217, b := some 98 } := by
  decide

/-- Claim C9 counterexample: the malformed, non-empty color string "zzz" does
not produce the neutral gray — all three components are NaN (`parseInt("zz", 16)`
has no hex digit to consume). -/
theorem c9_counterexample :
    ¬ hexToRgb "zzz" = { r := some 200, g := some 200, b := some 200 } := by
  decide

/-- Claim C9 (amended): the empty color string — the only falsy string, the
only input the fallback branch covers — returns the fixed neutral gray
(200, 200, 200). -/
theorem c9_empty_string_gray :
    hexToRgb "" = { r := some 200, g := some 200, b := some 200 } := by
  decide

/-! ## Renderer: proximity falloff -/

/-- Body of `proximityFactorToMouseWithRadius` after the squared distance
`d2 = dx*dx + dy*dy` has been computed: 0 outside the effect radius,
otherwise linear (`1 − t`) or quadratic (`1 − t·t`) falloff of
`t = √d2 / radius`, floored at 0. -/
noncomputable def proximityOfD2 (falloff : Falloff) (d2 radius radius2 : ℝ) : ℝ :=
  if d2 ≥ radius2 then 0
  else
    match falloff with
    | .linear => max 0 (1 - Real.sqrt d2 / radius)
    | .quadratic => max 0 (1 - (Real.sqrt d2 / radius) * (Real.sqrt d2 / radius))

/-- `proximityFactorToMouseWithRadius` generalized over the falloff mode;
`(nx, ny)` is the node position and `(mx, my)` the mouse-node position. -/
noncomputable def proximityFactorWith (falloff : Falloff) (nx ny mx my radius radius2 : ℝ) : ℝ :=
  proximityOfD2 falloff ((nx - mx) * (nx - mx) + (ny - my) * (ny - my)) radius radius2

/-- The renderer's `proximityFactorToMouseWithRadius`, at the configured
falloff mode (`MOUSE_FALLOFF`). -/
noncomputable def proximityFactorToMouseWithRadius (nx ny mx my radius radius2 : ℝ) : ℝ :=
  proximityFactorWith MOUSE_FALLOFF nx ny mx my radius radius2

theorem proximityOfD2_nonneg (f : Falloff) (d2 radius radius2 : ℝ) :
    0 ≤ proximityOfD2 f d2 radius radius2 := by
  unfold proximityOfD2
  split_ifs
  · exact le_refl 0
  · cases f
    · exact le_max_left 0 _
    · exact le_max_left 0 _

/-- Claim C2 counterexample: node at (1,0), mouse at (0,0), radius 2 (so
`t = 1/2`): the quadratic falloff value 3/4 is strictly greater than the
linear value 1/2, refuting quadratic ≤ linear at a non-zero distance
strictly inside the radius. -/
theorem c2_counterexample :
    ¬ (proximityFactorWith Falloff.quadratic 1 0 0 0 2 4 ≤
       proximityFactorWith Falloff.linear 1 0 0 0 2 4) := by
  have hd : ((1:ℝ) - 0) * (1 - 0) + ((0:ℝ) - 0) * (0 - 0) = 1 := by norm_num
  unfold proximityFactorWith
  rw [hd]
  unfold proximityOfD2
  rw [if_neg (by norm_num : ¬ ((1:ℝ) ≥ 4)), if_neg (by norm_num : ¬ ((1:ℝ) ≥ 4))]
  have h1 : Real.sqrt 1 / 2 = (1 : ℝ) / 2 := by rw [Real.sqrt_one]
  show ¬ (max 0 (1 - Real.sqrt 1 / 2 * (Real.sqrt 1 / 2)) ≤ max 0 (1 - Real.sqrt 1 / 2))
  rw [h1]
  rw [max_eq_right (by norm_num : (0:ℝ) ≤ 1 - 1 / 2 * (1 / 2)),
      max_eq_right (by norm_num : (0:ℝ) ≤ 1 - 1 / 2)]
  norm_num

/-- Claim C2 (amended): at every distance — in particular every non-zero
distance strictly inside a positive radius — the quadratic-falloff proximity
is greater than or equal to the linear-falloff proximity (the spec has the
inequality backwards). -/
theorem c2_linear_le_quadratic (nx ny mx my radius : ℝ) (hr : 0 < radius) :
    proximityFactorWith Falloff.linear nx ny mx my radius (radius * radius) ≤
    proximityFactorWith Falloff.quadratic nx ny mx my radius (radius * radius) := by
  unfold proximityFactorWith proximityOfD2
  set d2 := (nx - mx) * (nx - mx) + (ny - my) * (ny - my) with hd2
  split_ifs with h
  · exact le_refl 0
  · show max 0 (1 - Real.sqrt d2 / radius) ≤
      max 0 (1 - Real.sqrt d2 / radius * (Real.sqrt d2 / radius))
    have ht0 : 0 ≤ Real.sqrt d2 / radius := div_nonneg (Real.sqrt_nonneg _) hr.le
    have ht1 : Real.sqrt d2 / radius ≤ 1 := by
      rw [div_le_one hr]
      calc Real.sqrt d2 ≤ Real.sqrt (radius * radius) :=
            Real.sqrt_le_sqrt (le_of_lt (not_le.mp h))
        _ = radius := Real.sqrt_mul_self hr.le
    apply max_le_max (le_refl 0)
    nlinarith

theorem c2_linear_le_quadratic_witness :
    (0 : ℝ) < 2 ∧
    proximityFactorWith Falloff.linear 1 0 0 0 2 (2 * 2) ≤
      proximityFactorWith Falloff.quadratic 1 0 0 0 2 (2 * 2) :=
  ⟨by norm_num, c2_linear_le_quadratic 1 0 0 0 2 (by norm_num)⟩

/-- The configured (linear) falloff is antitone in the squared distance. -/
theorem proximityOfD2_linear_antitone (radius : ℝ) (hr : 0 < radius) (a b : ℝ)
    (hab : a ≤ b) :
    proximityOfD2 Falloff.linear b radius (radius * radius) ≤
    proximityOfD2 Falloff.linear a radius (radius * radius) := by
  by_cases hb2 : b ≥ radius * radius
  · have hzero : proximityOfD2 Falloff.linear b radius (radius * radius) = 0 := by
      unfold proximityOfD2; rw [if_pos hb2]
    rw [hzero]
    exact proximityOfD2_nonneg _ _ _ _
  · have ha2 : ¬ a ≥ radius * radius := fun h => hb2 (le_trans h hab)
    unfold proximityOfD2
    rw [if_neg hb2, if_neg ha2]
    apply max_le_max (le_refl 0)
    have hs : Real.sqrt a ≤ Real.sqrt b := Real.sqrt_le_sqrt hab
    have hdiv : Real.sqrt a / radius ≤ Real.sqrt b / radius := by
      rw [div_eq_mul_inv, div_eq_mul_inv]
      exact mul_le_mul_of_nonneg_right hs (inv_nonneg.mpr hr.le)
    linarith

/-- Claim C7: for every positive effect radius (with `radius2 = radius²` as at
every call site), the proximity function is 0 whenever the squared distance to
the mouse node is at least `radius²`, is exactly 1 at distance 0, and is
monotonically non-increasing in the distance. -/
theorem c7_proximity_properties (mx my radius : ℝ) (hr : 0 < radius) :
    (∀ nx ny, (nx - mx) * (nx - mx) + (ny - my) * (ny - my) ≥ radius * radius →
        proximityFactorToMouseWithRadius nx ny mx my radius (radius * radius) = 0) ∧
    proximityFactorToMouseWithRadius mx my mx my radius (radius * radius) = 1 ∧
    (∀ nx1 ny1 nx2 ny2,
        Real.sqrt ((nx1 - mx) * (nx1 - mx) + (ny1 - my) * (ny1 - my)) ≤
          Real.sqrt ((nx2 - mx) * (nx2 - mx) + (ny2 - my) * (ny2 - my)) →
        proximityFactorToMouseWithRadius nx2 ny2 mx my radius (radius * radius) ≤
          proximityFactorToMouseWithRadius nx1 ny1 mx my radius (radius * radius)) := by
  refine ⟨?_, ?_, ?_⟩
  · intro nx ny h
    unfold proximityFactorToMouseWithRadius proximityFactorWith proximityOfD2
    rw [if_pos h]
  · unfold proximityFactorToMouseWithRadius proximityFactorWith MOUSE_FALLOFF
    have h0 : (mx - mx) * (mx - mx) + (my - my) * (my - my) = 0 := by simp
    rw [h0]
    unfold proximityOfD2
    rw [if_neg (by nlinarith : ¬ ((0:ℝ) ≥ radius * radius))]
    show max 0 (1 - Real.sqrt 0 / radius) = 1
    rw [Real.sqrt_zero, zero_div, sub_zero]
    exact max_eq_right zero_le_one
  · intro nx1 ny1 nx2 ny2 hs
    have h1nn : 0 ≤ (nx1 - mx) * (nx1 - mx) + (ny1 - my) * (ny1 - my) :=
      add_nonneg (mul_self_nonneg _) (mul_self_nonneg _)
    have h2nn : 0 ≤ (nx2 - mx) * (nx2 - mx) + (ny2 - my) * (ny2 - my) :=
      add_nonneg (mul_self_nonneg _) (mul_self_nonneg _)
    have hab : (nx1 - mx) * (nx1 - mx) + (ny1 - my) * (ny1 - my) ≤
        (nx2 - mx) * (nx2 - mx) + (ny2 - my) * (ny2 - my) := by
      calc (nx1 - mx) * (nx1 - mx) + (ny1 - my) * (ny1 - my)
          = Real.sqrt ((nx1 - mx) * (nx1 - mx) + (ny1 - my) * (ny1 - my)) *
              Real.sqrt ((nx1 - mx) * (nx1 - mx) + (ny1 - my) * (ny1 - my)) :=
            (Real.mul_self_sqrt h1nn).symm
        _ ≤ Real.sqrt ((nx2 - mx) * (nx2 - mx) + (ny2 - my) * (ny2 - my)) *
              Real.sqrt ((nx2 - mx) * (nx2 - mx) + (ny2 - my) * (ny2 - my)) :=
            mul_self_le_mul_self (Real.sqrt_nonneg _) hs
        _ = (nx2 - mx) * (nx2 - mx) + (ny2 - my) * (ny2 - my) :=
            Real.mul_self_sqrt h2nn
    exact proximityOfD2_linear_antitone radius hr _ _ hab

theorem c7_proximity_witness :
    (0 : ℝ) < 1 ∧
    ((∀ nx ny, (nx - (0:ℝ)) * (nx - 0) + (ny - (0:ℝ)) * (ny - 0) ≥ 1 * 1 →
        proximityFactorToMouseWithRadius nx ny 0 0 1 (1 * 1) = 0) ∧
      proximityFactorToMouseWithRadius 0 0 0 0 1 (1 * 1) = 1 ∧
      (∀ nx1 ny1 nx2 ny2,
          Real.sqrt ((nx1 - (0:ℝ)) * (nx1 - 0) + (ny1 - (0:ℝ)) * (ny1 - 0)) ≤
            Real.sqrt ((nx2 - (0:ℝ)) * (nx2 - 0) + (ny2 - (0:ℝ)) * (ny2 - 0)) →
          proximityFactorToMouseWithRadius nx2 ny2 0 0 1 (1 * 1) ≤
            proximityFactorToMouseWithRadius nx1 ny1 0 0 1 (1 * 1))) :=
  ⟨by norm_num, c7_proximity_properties 0 0 1 (by norm_num)⟩

/-! ## Renderer: edge discovery and opacity -/

/-- `Math.hypot(dx, dy)`. -/
noncomputable def hypot (dx dy : ℝ) : ℝ := Real.sqrt (dx * dx + dy * dy)

/-- The O(n²) edge scan of `drawFrameWithSeparateRadii`: every ordered pair
`(i, j)` with `i < j` whose Euclidean distance is at most `LINK_DISTANCE`
contributes the record `(a, b, dist)`, in loop order. -/
noncomputable def computeEdges : List (Node ℝ) → List (Node ℝ × Node ℝ × ℝ)
  | [] => []
  | a :: rest =>
      (rest.filterMap (fun b =>
        let dist := hypot (a.x - b.x) (a.y - b.y)
        if dist ≤ LINK_DISTANCE then some (a, b, dist) else none))
      ++ computeEdges rest

/-- `baseOpacity = Math.max(0, 1 - dist / LINK_DISTANCE)`. -/
noncomputable def baseOpacity (dist : ℝ) : ℝ := max 0 (1 - dist / LINK_DISTANCE)

/-- Any later element within the link distance of `a` forms an edge with `a`. -/
theorem mem_computeEdges (pre : List (Node ℝ)) (a : Node ℝ) (rest : List (Node ℝ))
    (b : Node ℝ) (hb : b ∈ rest)
    (hd : hypot (a.x - b.x) (a.y - b.y) ≤ LINK_DISTANCE) :
    (a, b, hypot (a.x - b.x) (a.y - b.y)) ∈ computeEdges (pre ++ a :: rest) := by
  induction pre with
  | nil =>
      rw [List.nil_append]
      unfold computeEdges
      apply List.mem_append_left
      rw [List.mem_filterMap]
      refine ⟨b, hb, ?_⟩
      simp [hd]
  | cons c t ih =>
      rw [List.cons_append]
      unfold computeEdges
      exact List.mem_append_right _ ih

/-- Claim C8: for distinct nodes at positions `i < j` of the store, if their
distance is exactly the link threshold the pair is in the derived edge set
with base opacity exactly 0; at distance 0 the base opacity is exactly 1. -/
theorem c8_edge_boundary (nodes : List (Node ℝ)) (i j : ℕ)
    (hij : i < j) (hj : j < nodes.length) (a b : Node ℝ)
    (ha : a = nodes.get ⟨i, lt_trans hij hj⟩) (hb : b = nodes.get ⟨j, hj⟩) :
    (hypot (a.x - b.x) (a.y - b.y) = LINK_DISTANCE →
        (a, b, hypot (a.x - b.x) (a.y - b.y)) ∈ computeEdges nodes ∧
        baseOpacity (hypot (a.x - b.x) (a.y - b.y)) = 0) ∧
    (hypot (a.x - b.x) (a.y - b.y) = 0 →
        baseOpacity (hypot (a.x - b.x) (a.y - b.y)) = 1) := by
  have hmem : hypot (a.x - b.x) (a.y - b.y) ≤ LINK_DISTANCE →
      (a, b, hypot (a.x - b.x) (a.y - b.y)) ∈ computeEdges nodes := by
    intro hd
    have hsplit : nodes = nodes.take i ++ a :: nodes.drop (i + 1) := by
      rw [ha]
      conv_lhs => rw [← List.take_append_drop i nodes]
      congr 1
      exact (List.cons_get_drop_succ (l := nodes) (n := ⟨i, lt_trans hij hj⟩)).symm
    have hlt2 : i + 1 + (j - (i + 1)) < nodes.length := by omega
    have hbmem : b ∈ nodes.drop (i + 1) := by
      rw [hb]
      have hg : nodes.get ⟨j, hj⟩ =
          (nodes.drop (i + 1)).get ⟨j - (i + 1), List.lt_length_drop nodes hlt2⟩ := by
        rw [← List.get_drop nodes hlt2]
        congr 1
        exact Fin.ext (by show j = i + 1 + (j - (i + 1)); omega)
      rw [hg]
      exact List.get_mem _ _ _
    rw [hsplit]
    exact mem_computeEdges _ a _ b hbmem hd
  constructor
  · intro hd
    refine ⟨hmem (le_of_eq hd), ?_⟩
    rw [hd]
    unfold baseOpacity LINK_DISTANCE
    norm_num
  · intro hd
    rw [hd]
    unfold baseOpacity
    rw [zero_div, sub_zero]
    exact max_eq_right zero_le_one

/-- Two concrete nodes at distance exactly `LINK_DISTANCE`. -/
def edgeNodeA : Node ℝ :=
  { id := 0, x := 0, y := 0, vx := 0, vy := 0, fx := none, fy := none,
    radius := 1, color := "" }

def edgeNodeB : Node ℝ :=
  { id := 1, x := 100, y := 0, vx := 0, vy := 0, fx := none, fy := none,
    radius := 1, color := "" }

theorem c8_edge_boundary_witness :
    ((0 : ℕ) < 1 ∧ 1 < ([edgeNodeA, edgeNodeB] : List (Node ℝ)).length ∧
      edgeNodeA = ([edgeNodeA, edgeNodeB] : List (Node ℝ)).get ⟨0, by norm_num⟩ ∧
      edgeNodeB = ([edgeNodeA, edgeNodeB] : List (Node ℝ)).get ⟨1, by norm_num⟩) ∧
    ((hypot (edgeNodeA.x - edgeNodeB.x) (edgeNodeA.y - edgeNodeB.y) = LINK_DISTANCE →
        (edgeNodeA, edgeNodeB,
          hypot (edgeNodeA.x - edgeNodeB.x) (edgeNodeA.y - edgeNodeB.y)) ∈
            computeEdges [edgeNodeA, edgeNodeB] ∧
        baseOpacity (hypot (edgeNodeA.x - edgeNodeB.x) (edgeNodeA.y - edgeNodeB.y)) = 0) ∧
     (hypot (edgeNodeA.x - edgeNodeB.x) (edgeNodeA.y - edgeNodeB.y) = 0 →
        baseOpacity (hypot (edgeNodeA.x - edgeNodeB.x) (edgeNodeA.y - edgeNodeB.y)) = 1)) :=
  ⟨⟨by norm_num, by norm_num, rfl, rfl⟩,
   c8_edge_boundary [edgeNodeA, edgeNodeB] 0 1 (by norm_num) (by norm_num)
     edgeNodeA edgeNodeB rfl rfl⟩

end GraphSim
